import Mathlib

/-!
A shallow embedding of `wrapped_py/__init__.py` — a script that resolves album
cover art (direct URL, MusicBrainz catalog lookup with retry/backoff, or a
placeholder fallback) and composes a fixed-column grid image with captions.

The effectful parts (HTTP requests, sleeps, log lines) are modelled by an
explicit environment (`Net`, `TextEnv`) and an event trace (`List Event`);
the pure layout arithmetic is translated directly.  Python machine-level
concerns do not arise: all arithmetic here is on `Nat`/`Int`, with Python's
float division by 2 in caption centering rendered exactly in `ℚ`.
-/

namespace YearReview

/-- Constant from the source header (line 10). -/
def PLACEHOLDER_URL : String := "https://via.placeholder.com/1200x1200?text=No+Cover"

/-- Constant from the source header (line 11). -/
def MUSICBRAINZ_COVER_API : String := "https://coverartarchive.org/release/"

/-- Constant from the source header (line 14). -/
def RETRIES : Nat := 3

/-- Constant from the source header (line 15), in seconds. -/
def TIMEOUT : Nat := 10

/-- Constant from the source header (line 16). -/
def IMAGE_WIDTH : Nat := 200

/-- Constant from the source header (line 17). -/
def IMAGE_HEIGHT : Nat := 200

/-- Constant from the source header (line 18). -/
def PADDING : Nat := 20

/-- Constant from the source header (line 19). -/
def NUM_COLUMNS : Nat := 5

/-- Python `str.split(sep)` for a one-character separator, on the character
list of the string: `""` yields `[[]]`, i.e. `[""]`, exactly as in Python. -/
def splitOnChar (c : Char) : List Char → List (List Char)
  | [] => [[]]
  | a :: rest =>
    match splitOnChar c rest with
    | [] => if a = c then [[], []] else [[a]]
    | g :: gs => if a = c then [] :: g :: gs else (a :: g) :: gs

/-- `s.split("|")` from the source (lines 34 and 148). -/
def split_pipe (s : String) : List String :=
  (splitOnChar '|' s.data).map fun cs => String.mk cs

/-- Outcome of one catalog search request, i.e. of
`requests.get(search_url, timeout) ; raise_for_status ; response.json() ;
data["releases"]` (lines 44-48): a network/HTTP error
(`requests.exceptions.RequestException`), a non-transient parse failure
(JSON decode error or missing key, any non-request exception), or the parsed
list of release ids. -/
inductive SearchOutcome where
  | netErr : SearchOutcome
  | parseErr : SearchOutcome
  | ok : List String → SearchOutcome
deriving DecidableEq

/-- Outcome of the cover-by-identifier fetch and decode
(`requests.get(cover_url, timeout) ; raise_for_status ; Image.open`,
lines 51-57): a network/HTTP error, an image decode failure (non-request
exception), or success. -/
inductive CoverOutcome where
  | netErr : CoverOutcome
  | decodeErr : CoverOutcome
  | ok : CoverOutcome
deriving DecidableEq

/-- The environment one catalog attempt runs against. -/
structure AttemptEnv where
  search : SearchOutcome
  cover : CoverOutcome
deriving DecidableEq

/-- Outcome of `requests.get(url, timeout) ; raise_for_status ; Image.open`
for a direct URL fetch (lines 79-81): any raised exception lands in the same
`except` handler, so one failure case suffices. -/
inductive DirectOutcome where
  | ok : DirectOutcome
  | err : DirectOutcome
deriving DecidableEq

/-- The network environment a single `fetch_image` call runs against:
the catalog outcome per attempt index, the direct-fetch outcome per URL, and
whether the final no-timeout placeholder fetch of line 100 succeeds. -/
structure Net where
  attempt : Nat → AttemptEnv
  direct : String → DirectOutcome
  fallbackOk : Bool

/-- An HTTP request issued by the program, with the timeout passed to
`requests.get` (`none` when no timeout argument is given). -/
inductive Request where
  | catalogSearch : Option String → Option String → Option Nat → Request
  | coverById : String → Option Nat → Request
  | getUrl : String → Option Nat → Request
deriving DecidableEq

/-- A diagnostic line printed by `fetch_image`; constructors follow the
print sites at lines 53, 60, 68, 83, 88, 95 and 96 of the source. -/
inductive LogLine where
  | foundMB : Nat → LogLine
  | transientErrLog : Nat → LogLine
  | nonTransientErrLog : Nat → LogLine
  | defaultPlaceholder : LogLine
  | foundDirect : LogLine
  | errFetching : LogLine
  | defaultingAfterErr : LogLine
deriving DecidableEq

/-- One observable step of `fetch_image`: a request, a `time.sleep`, or a
printed log line. -/
inductive Event where
  | req : Request → Event
  | sleep : Nat → Event
  | log : LogLine → Event
deriving DecidableEq

/-- Which resolution path produced an image (diagnostic provenance tag). -/
inductive Provenance where
  | catalogLookup : Provenance
  | directUrl : Provenance
  | placeholder : Provenance
deriving DecidableEq

/-- A decoded image, identified by the URL it was fetched from plus its
provenance. -/
structure Img where
  src : String
  prov : Provenance
deriving DecidableEq

/-- The ways `fetch_image` can raise: the `ValueError` from the tuple unpack
of a key that does not split into exactly two parts (line 34, and the same
unpack at line 148), and a failure of the final placeholder fetch/decode at
lines 99-101, the only error escaping the resolution fallbacks. -/
inductive FetchErr where
  | malformedKey : FetchErr
  | placeholderFatal : FetchErr
deriving DecidableEq

/-- Line 34: `artist_name, album_name = album.split("|") if album else
(None, None)`.  Python truthiness: `None` and `""` both select the
`(None, None)` arm; otherwise the two-element unpack raises `ValueError`
unless the split has exactly two parts. -/
def parseKey : Option String → Except FetchErr (Option String × Option String)
  | none => Except.ok (none, none)
  | some a =>
    if a = "" then Except.ok (none, none)
    else
      match split_pipe a with
      | [x, y] => Except.ok (some x, some y)
      | _ => Except.error FetchErr.malformedKey

/-- The retry loop of lines 42-71, one iteration per remaining attempt.
`attempt` is the Python loop variable, `rem` the number of iterations left
(`rem = retries - attempt` at every call).  Returns the event trace of the
loop together with the release id whose cover fetch succeeded, if any.
Per iteration: the search request is issued; a `RequestException` logs and
sleeps `2 ** attempt` unless this is the final attempt (lines 58-66); any
other exception logs without sleeping (lines 67-71); an empty `releases`
list does nothing; a non-empty one issues the cover request, and on success
prints the found-cover line and returns (the print at line 53 precedes the
`Image.open` at line 57, so a decode failure still emits it first). -/
def catalogGo (net : Net) (artist_name album_name : Option String)
    (retries timeout : Nat) : Nat → Nat → List Event × Option String
  | _, 0 => ([], none)
  | attempt, rem + 1 =>
    let reqS : Event := Event.req (Request.catalogSearch artist_name album_name (some timeout))
    match (net.attempt attempt).search with
    | SearchOutcome.netErr =>
      let tail := if attempt < retries - 1 then [Event.sleep (2 ^ attempt)] else []
      let rest := catalogGo net artist_name album_name retries timeout (attempt + 1) rem
      (reqS :: Event.log (LogLine.transientErrLog attempt) :: tail ++ rest.1, rest.2)
    | SearchOutcome.parseErr =>
      let rest := catalogGo net artist_name album_name retries timeout (attempt + 1) rem
      (reqS :: Event.log (LogLine.nonTransientErrLog attempt) :: rest.1, rest.2)
    | SearchOutcome.ok [] =>
      let rest := catalogGo net artist_name album_name retries timeout (attempt + 1) rem
      (reqS :: rest.1, rest.2)
    | SearchOutcome.ok (mbid :: _) =>
      let reqC : Event := Event.req (Request.coverById mbid (some timeout))
      match (net.attempt attempt).cover with
      | CoverOutcome.ok =>
        ([reqS, reqC, Event.log (LogLine.foundMB attempt)], some mbid)
      | CoverOutcome.netErr =>
        let tail := if attempt < retries - 1 then [Event.sleep (2 ^ attempt)] else []
        let rest := catalogGo net artist_name album_name retries timeout (attempt + 1) rem
        (reqS :: reqC :: Event.log (LogLine.transientErrLog attempt) :: tail ++ rest.1, rest.2)
      | CoverOutcome.decodeErr =>
        let rest := catalogGo net artist_name album_name retries timeout (attempt + 1) rem
        (reqS :: reqC :: Event.log (LogLine.foundMB attempt)
          :: Event.log (LogLine.nonTransientErrLog attempt) :: rest.1, rest.2)

/-- Lines 73-101: substitute the placeholder URL when none was supplied,
fetch it with the per-attempt timeout, log which source satisfied the
request, and on any failure fall back once to fetching the placeholder URL
with no timeout argument (line 100), the single fatal point. -/
def directPhase (net : Net) (url : Option String) (timeout : Nat) :
    List Event × Except FetchErr Img :=
  let url2 := match url with | none => PLACEHOLDER_URL | some u => u
  let reqD : Event := Event.req (Request.getUrl url2 (some timeout))
  match net.direct url2 with
  | DirectOutcome.ok =>
    if url2 = PLACEHOLDER_URL then
      ([reqD, Event.log LogLine.defaultPlaceholder], Except.ok ⟨url2, Provenance.placeholder⟩)
    else
      ([reqD, Event.log LogLine.foundDirect], Except.ok ⟨url2, Provenance.directUrl⟩)
  | DirectOutcome.err =>
    let evs := [reqD, Event.log LogLine.errFetching, Event.log LogLine.defaultingAfterErr,
      Event.req (Request.getUrl PLACEHOLDER_URL none)]
    if net.fallbackOk then (evs, Except.ok ⟨PLACEHOLDER_URL, Provenance.placeholder⟩)
    else (evs, Except.error FetchErr.placeholderFatal)

/-- `fetch_image(url, album, retries, timeout)` (lines 27-101): split the
key; when no URL is supplied and an album key is (even an empty one, since
`album is not None` at line 36 is not a truthiness test), run the catalog
loop and return the cover-by-identifier image on success; otherwise fetch
the supplied URL or the placeholder. -/
def fetch_image (net : Net) (url album : Option String) (retries timeout : Nat) :
    List Event × Except FetchErr Img :=
  match parseKey album with
  | Except.error e => ([], Except.error e)
  | Except.ok (artist_name, album_name) =>
    match url, album with
    | none, some _ =>
      match catalogGo net artist_name album_name retries timeout 0 retries with
      | (catEvs, some mbid) =>
        (catEvs, Except.ok ⟨MUSICBRAINZ_COVER_API ++ mbid ++ "/front", Provenance.catalogLookup⟩)
      | (catEvs, none) =>
        let d := directPhase net none timeout
        (catEvs ++ d.1, d.2)
    | _, _ => directPhase net url timeout

/-- Line 114: `num_rows = (num_albums + NUM_COLUMNS - 1) // NUM_COLUMNS`. -/
def num_rows (num_albums : Nat) : Nat := (num_albums + NUM_COLUMNS - 1) / NUM_COLUMNS

/-- Line 116: `width = NUM_COLUMNS * IMAGE_WIDTH + (NUM_COLUMNS + 1) * PADDING`. -/
def canvas_width : Nat := NUM_COLUMNS * IMAGE_WIDTH + (NUM_COLUMNS + 1) * PADDING

/-- Lines 117-119: `height = num_rows * (IMAGE_HEIGHT + 40) +
(num_rows + 1) * PADDING + 120`. -/
def canvas_height (num_albums : Nat) : Nat :=
  num_rows num_albums * (IMAGE_HEIGHT + 40) + (num_rows num_albums + 1) * PADDING + 120

/-- Cursor update at the end of each loop iteration (lines 172-177):
`x += IMAGE_WIDTH + PADDING; if x + IMAGE_WIDTH + PADDING > width:
x = PADDING; y += IMAGE_HEIGHT + PADDING + 40`. -/
def advance (p : Nat × Nat) : Nat × Nat :=
  let x := p.1 + IMAGE_WIDTH + PADDING
  if x + IMAGE_WIDTH + PADDING > canvas_width then
    (PADDING, p.2 + IMAGE_HEIGHT + PADDING + 40)
  else (x, p.2)

/-- Line 136: `x, y = PADDING, 120 + PADDING`. -/
def startPos : Nat × Nat := (PADDING, 120 + PADDING)

/-- Closed-form cursor position before the `i`-th (0-indexed) entry is
pasted. -/
def posClosed (i : Nat) : Nat × Nat := (20 + 220 * (i % 5), 140 + 260 * (i / 5))

/-- Abstraction of PIL text measurement.  `titleL` is index 0 of the title
bounding box computed at line 129 (the variable `bbox`, still in scope
during the album loop); `cap s` returns indices 0 and 2 of
`draw.textbbox((0, 0), s, font=album_font)`. -/
structure TextEnv where
  titleL : Int
  cap : String → Int × Int

/-- A caption draw call: the text and the point passed to `draw.text`.
Python's `/` is float division, rendered exactly in `ℚ`. -/
structure Caption where
  text : String
  x : ℚ
  y : ℚ
deriving DecidableEq

/-- The two caption draw calls of lines 150-170 for the cell pasted at
`(x, y)`.  Note line 162 of the source: `text_width_album =
bbox_album[2] - bbox[0]` subtracts the TITLE's bbox left coordinate, not
`bbox_album[0]`. -/
def drawCaptions (te : TextEnv) (x y : Nat) (artist_name album_name : String) :
    Caption × Caption :=
  let bbox_artist := te.cap artist_name
  let text_width_artist : Int := bbox_artist.2 - bbox_artist.1
  let text_x_artist : ℚ := (x : ℚ) + (((IMAGE_WIDTH : Int) - text_width_artist : Int) : ℚ) / 2
  let text_y_artist : ℚ := (y : ℚ) + (IMAGE_HEIGHT : ℚ) + 5
  let bbox_album := te.cap album_name
  let text_width_album : Int := bbox_album.2 - te.titleL
  let text_x_album : ℚ := (x : ℚ) + (((IMAGE_WIDTH : Int) - text_width_album : Int) : ℚ) / 2
  let text_y_album : ℚ := text_y_artist + 20
  (⟨artist_name, text_x_artist, text_y_artist⟩, ⟨album_name, text_x_album, text_y_album⟩)

/-- What one iteration of the album loop (lines 143-148) contributes to the
canvas: the paste position, the paste size after `img.resize((IMAGE_WIDTH,
IMAGE_HEIGHT))`, the album key rendered, the resolved image, and the two
caption texts from `album.split("|")` at line 148 (their pixel placement is
`drawCaptions`). -/
structure Cell where
  pos : Nat × Nat
  size : Nat × Nat
  key : String
  img : Img
  artist_name : String
  album_name : String
deriving DecidableEq

/-- The loop body of lines 143-148 for one entry at cursor `p`:
`fetch_image(cover_url, album)` with the default retries and timeout, the
resize and paste, then the caption split, whose two-element unpack raises
`ValueError` unless the key splits into exactly two parts. -/
def processEntry (net : Net) (p : Nat × Nat) (album : String)
    (cover_url : Option String) : Except FetchErr Cell :=
  match (fetch_image net cover_url (some album) RETRIES TIMEOUT).2 with
  | Except.error e => Except.error e
  | Except.ok img =>
    match split_pipe album with
    | [artist_name, album_name] =>
      Except.ok ⟨p, (IMAGE_WIDTH, IMAGE_HEIGHT), album, img, artist_name, album_name⟩
    | _ => Except.error FetchErr.malformedKey

/-- The album loop of lines 143-177, iterating the mapping in insertion
order and threading the cursor; the first raised error aborts the run. -/
def composeGo (net : Net) : List (String × Option String) → Nat × Nat →
    Except FetchErr (List Cell)
  | [], _ => Except.ok []
  | (album, cover_url) :: rest, p =>
    match processEntry net p album cover_url with
    | Except.error e => Except.error e
    | Except.ok c =>
      match composeGo net rest (advance p) with
      | Except.error e => Except.error e
      | Except.ok cs => Except.ok (c :: cs)

/-- The canvas produced by `create_review_image`: its allocated dimensions
and the cells drawn by the album loop. -/
structure Review where
  width : Nat
  height : Nat
  cells : Except FetchErr (List Cell)

/-- `create_review_image(albums)` (lines 111-182): the grid dimensions are
computed from `len(albums)` and the fixed constants before any drawing, the
canvas is allocated at exactly that size, and the album loop runs from
`startPos`.  The ordered Python dict is modelled as a list of key/url
pairs. -/
def create_review_image (net : Net) (albums : List (String × Option String)) : Review :=
  ⟨canvas_width, canvas_height albums.length, composeGo net albums startPos⟩

/-- Event classifiers and trace projections used by the theorems. -/
def isCatalogReq : Event → Bool
  | Event.req (Request.catalogSearch _ _ _) => true
  | Event.req (Request.coverById _ _) => true
  | _ => false

/-- True exactly for catalog search requests. -/
def isSearchReq : Event → Bool
  | Event.req (Request.catalogSearch _ _ _) => true
  | _ => false

/-- True for the log lines printed inside the catalog retry loop. -/
def isAttemptLog : Event → Bool
  | Event.log (LogLine.foundMB _) => true
  | Event.log (LogLine.transientErrLog _) => true
  | Event.log (LogLine.nonTransientErrLog _) => true
  | _ => false

/-- True for a request issued without an explicit timeout. -/
def isNoTimeoutReq : Event → Bool
  | Event.req (Request.catalogSearch _ _ none) => true
  | Event.req (Request.coverById _ none) => true
  | Event.req (Request.getUrl _ none) => true
  | _ => false

/-- True exactly for the defaulting-to-placeholder log line of line 83. -/
def isPlaceholderLog : Event → Bool
  | Event.log LogLine.defaultPlaceholder => true
  | _ => false

/-- The duration of a sleep event. -/
def sleepVal : Event → Option Nat
  | Event.sleep s => some s
  | _ => none

/-- The sleep durations of a trace, in order. -/
def sleepsOf (evs : List Event) : List Nat :=
  evs.filterMap sleepVal

/-- Attempt `a` short-circuits the retry loop: the search returned a
non-empty candidate list and the cover fetch and decode succeeded. -/
def succeeds (net : Net) (a : Nat) : Bool :=
  match (net.attempt a).search, (net.attempt a).cover with
  | SearchOutcome.ok (_ :: _), CoverOutcome.ok => true
  | _, _ => false

/-- Attempt `a` fails with a transient (network/HTTP) error: either the
search request or the cover request raised `RequestException`. -/
def transientFail (net : Net) (a : Nat) : Bool :=
  match (net.attempt a).search, (net.attempt a).cover with
  | SearchOutcome.netErr, _ => true
  | SearchOutcome.ok (_ :: _), CoverOutcome.netErr => true
  | _, _ => false

/-- No attempt before `a` short-circuits the loop, i.e. attempt `a` is
actually executed when at least `a + 1` attempts are allowed. -/
def noSuccessBefore (net : Net) (a : Nat) : Bool :=
  (List.range a).all fun b => !succeeds net b

/-- The sleep the specification prescribes for attempt `a` of a run of
`retries` attempts: `2 ^ a` exactly when the attempt is executed, fails
transiently, and is not the final attempt. -/
def sleepSpec (net : Net) (retries a : Nat) : Option Nat :=
  if noSuccessBefore net a && transientFail net a && decide (a < retries - 1) then
    some (2 ^ a)
  else none

/-- All sleep durations the specification prescribes for a run of `retries`
attempts, in order. -/
def expectedSleeps (net : Net) (retries : Nat) : List Nat :=
  (List.range retries).filterMap (sleepSpec net retries)

/-- A network environment where every fetch succeeds and every catalog
search returns no candidates. -/
def netOk : Net := ⟨fun _ => ⟨SearchOutcome.ok [], CoverOutcome.ok⟩, fun _ => DirectOutcome.ok, true⟩

/-- A network environment where every catalog attempt fails transiently and
direct fetches succeed. -/
def netTrans : Net :=
  ⟨fun _ => ⟨SearchOutcome.netErr, CoverOutcome.netErr⟩, fun _ => DirectOutcome.ok, true⟩

/-- A network environment where every direct fetch fails and the final
no-timeout placeholder fetch succeeds. -/
def netDirectErr : Net :=
  ⟨fun _ => ⟨SearchOutcome.ok [], CoverOutcome.ok⟩, fun _ => DirectOutcome.err, true⟩

/-- A network environment where every fetch fails, including the final
placeholder fetch: the fatal condition. -/
def netFatal : Net :=
  ⟨fun _ => ⟨SearchOutcome.netErr, CoverOutcome.netErr⟩, fun _ => DirectOutcome.err, false⟩

/-- A text-measurement environment whose title bbox starts at 2 while the
album caption "B" measures left 0, right 50: it separates the title's bbox
left coordinate from the album line's own. -/
def te8 : TextEnv := ⟨2, fun s => if s = "B" then (0, 50) else (0, 10)⟩

/-- The single-entry input of the one-cell scenario. -/
def demoAlbums : List (String × Option String) := [("A|B", some "http://x/cover.png")]

/-- The cell the one-cell scenario draws. -/
def demoCell : Cell :=
  ⟨(20, 140), (200, 200), "A|B", ⟨"http://x/cover.png", Provenance.directUrl⟩, "A", "B"⟩

theorem advance_posClosed (i : Nat) : advance (posClosed i) = posClosed (i + 1) := by
  simp only [advance, posClosed, canvas_width, IMAGE_WIDTH, IMAGE_HEIGHT, PADDING, NUM_COLUMNS]
  split
  · next h => simp only [Prod.mk.injEq]; omega
  · next h => simp only [Prod.mk.injEq]; omega

theorem startPos_posClosed : startPos = posClosed 0 := by
  simp [startPos, posClosed, PADDING]

theorem processEntry_ok (net : Net) (p : Nat × Nat) (album : String)
    (cover_url : Option String) (c : Cell)
    (h : processEntry net p album cover_url = Except.ok c) :
    c.pos = p ∧ c.size = (IMAGE_WIDTH, IMAGE_HEIGHT) ∧ c.key = album := by
  unfold processEntry at h
  rcases hf : (fetch_image net cover_url (some album) RETRIES TIMEOUT).2 with e | img
  · rw [hf] at h; exact absurd h (by simp)
  · rw [hf] at h
    rcases hs : split_pipe album with _ | ⟨a1, _ | ⟨a2, _ | _⟩⟩ <;> rw [hs] at h
    · exact absurd h (by simp)
    · exact absurd h (by simp)
    · cases h; exact ⟨rfl, rfl, rfl⟩
    · exact absurd h (by simp)

theorem composeGo_pos (net : Net) :
    ∀ (l : List (String × Option String)) (j : Nat) (cells : List Cell),
    composeGo net l (posClosed j) = Except.ok cells →
    cells.length = l.length ∧
      ∀ i (hi : i < cells.length) (hj : i < l.length),
        (cells.get ⟨i, hi⟩).pos = posClosed (j + i) ∧
        (cells.get ⟨i, hi⟩).size = (IMAGE_WIDTH, IMAGE_HEIGHT) ∧
        (cells.get ⟨i, hi⟩).key = (l.get ⟨i, hj⟩).1 := by
  intro l
  induction l with
  | nil =>
    intro j cells h
    simp only [composeGo] at h
    cases h
    exact ⟨rfl, by intro i hi; simp at hi⟩
  | cons hd tl ih =>
    intro j cells h
    obtain ⟨album, cover_url⟩ := hd
    simp only [composeGo] at h
    rcases hpe : processEntry net (posClosed j) album cover_url with e | c
    · rw [hpe] at h; exact absurd h (by simp)
    · rw [hpe] at h
      rcases hcg : composeGo net tl (advance (posClosed j)) with e | cs
      · rw [hcg] at h; exact absurd h (by simp)
      · rw [hcg] at h
        cases h
        rw [advance_posClosed] at hcg
        obtain ⟨hlen, hall⟩ := ih (j + 1) cs hcg
        refine ⟨by simp [hlen], ?_⟩
        intro i hi hj'
        cases i with
        | zero =>
          obtain ⟨h1, h2, h3⟩ := processEntry_ok net (posClosed j) album cover_url c hpe
          simpa using ⟨h1, h2, h3⟩
        | succ i' =>
          have hi' : i' < cs.length := by simpa using hi
          have hj'' : i' < tl.length := by simpa using hj'
          obtain ⟨g1, g2, g3⟩ := hall i' hi' hj''
          have hidx : j + 1 + i' = j + (i' + 1) := by omega
          rw [hidx] at g1
          exact ⟨by rw [List.get_cons_succ]; exact g1,
            by rw [List.get_cons_succ]; exact g2,
            by rw [List.get_cons_succ, List.get_cons_succ]; exact g3⟩

theorem sleepsOf_nil : sleepsOf [] = [] := rfl

theorem sleepsOf_cons_req (q : Request) (l : List Event) :
    sleepsOf (Event.req q :: l) = sleepsOf l := rfl

theorem sleepsOf_cons_log (g : LogLine) (l : List Event) :
    sleepsOf (Event.log g :: l) = sleepsOf l := rfl

theorem sleepsOf_cons_sleep (s : Nat) (l : List Event) :
    sleepsOf (Event.sleep s :: l) = s :: sleepsOf l := rfl

theorem sleepsOf_append (l1 l2 : List Event) :
    sleepsOf (l1 ++ l2) = sleepsOf l1 ++ sleepsOf l2 := by
  simp [sleepsOf]

theorem noSuccessBefore_eq_true (net : Net) (a : Nat)
    (h : ∀ b, b < a → succeeds net b = false) : noSuccessBefore net a = true := by
  unfold noSuccessBefore
  rw [List.all_eq_true]
  intro b hb
  rw [List.mem_range] at hb
  simp [h b hb]

theorem noSuccessBefore_eq_false (net : Net) (k a : Nat)
    (hk : succeeds net k = true) (hka : k < a) : noSuccessBefore net a = false := by
  cases hb : noSuccessBefore net a with
  | false => rfl
  | true =>
    exfalso
    unfold noSuccessBefore at hb
    rw [List.all_eq_true] at hb
    have hx := hb k (by rw [List.mem_range]; exact hka)
    simp [hk] at hx

theorem succeeds_eq_false_of_transient (net : Net) (a : Nat)
    (h : transientFail net a = true) : succeeds net a = false := by
  unfold succeeds
  unfold transientFail at h
  rcases hmk : net.attempt a with ⟨srch, cov⟩
  rcases srch with _ | _ | (_ | ⟨m, rel⟩) <;> rcases cov with _ | _ | _ <;> simp_all

theorem sleeps_catalogGo (net : Net) (A B : Option String) (ret t : Nat) :
    ∀ (rem att : Nat), (∀ b, b < att → succeeds net b = false) →
    sleepsOf (catalogGo net A B ret t att rem).1 =
      (List.range' att rem).filterMap (sleepSpec net ret) := by
  intro rem
  induction rem with
  | zero => intro att h; simp [catalogGo, sleepsOf]
  | succ rem ih =>
    intro att h
    have hns : noSuccessBefore net att = true := noSuccessBefore_eq_true net att h
    rw [List.range'_succ, List.filterMap_cons]
    rcases hs : (net.attempt att).search with _ | _ | (_ | ⟨m, rel⟩)
    · have htf : transientFail net att = true := by unfold transientFail; rw [hs]
      have hsc : succeeds net att = false := by unfold succeeds; rw [hs]
      have h' : ∀ b, b < att + 1 → succeeds net b = false := by
        intro b hb
        rcases Nat.lt_succ_iff_lt_or_eq.mp hb with h1 | rfl
        · exact h b h1
        · exact hsc
      simp only [catalogGo, hs]
      by_cases hatt : att < ret - 1
      · simp only [if_pos hatt, sleepSpec, hns, htf, Bool.true_and,
          decide_eq_true_eq, List.cons_append, List.nil_append, sleepsOf_cons_req, sleepsOf_cons_log,
          sleepsOf_cons_sleep, ih (att + 1) h']
      · simp only [if_neg hatt, sleepSpec, hns, htf, Bool.true_and,
          decide_eq_true_eq, List.cons_append, List.nil_append, sleepsOf_cons_req,
          sleepsOf_cons_log, ih (att + 1) h']
    · have htf : transientFail net att = false := by unfold transientFail; rw [hs]
      have hsc : succeeds net att = false := by unfold succeeds; rw [hs]
      have h' : ∀ b, b < att + 1 → succeeds net b = false := by
        intro b hb
        rcases Nat.lt_succ_iff_lt_or_eq.mp hb with h1 | rfl
        · exact h b h1
        · exact hsc
      simp only [catalogGo, hs, sleepsOf_cons_req, sleepsOf_cons_log,
        show sleepSpec net ret att = none from by simp [sleepSpec, htf], ih (att + 1) h']
    · have htf : transientFail net att = false := by unfold transientFail; rw [hs]
      have hsc : succeeds net att = false := by unfold succeeds; rw [hs]
      have h' : ∀ b, b < att + 1 → succeeds net b = false := by
        intro b hb
        rcases Nat.lt_succ_iff_lt_or_eq.mp hb with h1 | rfl
        · exact h b h1
        · exact hsc
      simp only [catalogGo, hs, sleepsOf_cons_req,
        show sleepSpec net ret att = none from by simp [sleepSpec, htf], ih (att + 1) h']
    · rcases hc : (net.attempt att).cover with _ | _ | _
      · have htf : transientFail net att = true := by unfold transientFail; rw [hs, hc]
        have hsc : succeeds net att = false := by unfold succeeds; rw [hs, hc]
        have h' : ∀ b, b < att + 1 → succeeds net b = false := by
          intro b hb
          rcases Nat.lt_succ_iff_lt_or_eq.mp hb with h1 | rfl
          · exact h b h1
          · exact hsc
        simp only [catalogGo, hs, hc]
        by_cases hatt : att < ret - 1
        · simp only [if_pos hatt, sleepSpec, hns, htf, Bool.true_and,
            decide_eq_true_eq, List.cons_append, List.nil_append, sleepsOf_cons_req, sleepsOf_cons_log,
            sleepsOf_cons_sleep, ih (att + 1) h']
        · simp only [if_neg hatt, sleepSpec, hns, htf, Bool.true_and,
            decide_eq_true_eq, List.cons_append, List.nil_append, sleepsOf_cons_req,
            sleepsOf_cons_log, ih (att + 1) h']
      · have htf : transientFail net att = false := by unfold transientFail; rw [hs, hc]
        have hsc : succeeds net att = false := by unfold succeeds; rw [hs, hc]
        have h' : ∀ b, b < att + 1 → succeeds net b = false := by
          intro b hb
          rcases Nat.lt_succ_iff_lt_or_eq.mp hb with h1 | rfl
          · exact h b h1
          · exact hsc
        simp only [catalogGo, hs, hc, sleepsOf_cons_req, sleepsOf_cons_log,
          show sleepSpec net ret att = none from by simp [sleepSpec, htf], ih (att + 1) h']
      · have htf : transientFail net att = false := by unfold transientFail; rw [hs, hc]
        have hsucc : succeeds net att = true := by unfold succeeds; rw [hs, hc]
        have hnil : (List.range' (att + 1) rem).filterMap (sleepSpec net ret) = [] := by
          rw [List.filterMap_eq_nil_iff]
          intro a ha
          rw [List.mem_range'] at ha
          obtain ⟨i, hi, rfl⟩ := ha
          have hgt : att < att + 1 + 1 * i := by omega
          rw [sleepSpec, noSuccessBefore_eq_false net att _ hsucc hgt]
          rfl
        simp only [catalogGo, hs, hc, sleepsOf_cons_req, sleepsOf_cons_log, sleepsOf_nil,
          show sleepSpec net ret att = none from by simp [sleepSpec, htf], hnil]

theorem searchCount_catalogGo (net : Net) (A B : Option String) (ret t : Nat) :
    ∀ (rem att : Nat),
    ((catalogGo net A B ret t att rem).1.filter isSearchReq).length ≤ rem := by
  intro rem
  induction rem with
  | zero => intro att; simp [catalogGo]
  | succ rem ih =>
    intro att
    have h1 := ih (att + 1)
    rcases hs : (net.attempt att).search with _ | _ | (_ | ⟨m, rel⟩) <;>
      simp only [catalogGo, hs]
    · by_cases hatt : att < ret - 1 <;>
        simp [hatt, isSearchReq, List.filter_append, List.filter_cons] <;> omega
    · simp [isSearchReq, List.filter_cons]; omega
    · simp [isSearchReq, List.filter_cons]; omega
    · rcases hc : (net.attempt att).cover with _ | _ | _ <;> simp only [hc]
      · by_cases hatt : att < ret - 1 <;>
          simp [hatt, isSearchReq, List.filter_append, List.filter_cons] <;> omega
      · simp [isSearchReq, List.filter_cons]; omega
      · simp [isSearchReq, List.filter_cons]

theorem catalogGo_no_timeoutless (net : Net) (A B : Option String) (ret t : Nat) :
    ∀ (rem att : Nat),
    (catalogGo net A B ret t att rem).1.filter isNoTimeoutReq = [] := by
  intro rem
  induction rem with
  | zero => intro att; simp [catalogGo]
  | succ rem ih =>
    intro att
    have h1 := ih (att + 1)
    rcases hs : (net.attempt att).search with _ | _ | (_ | ⟨m, rel⟩) <;>
      simp only [catalogGo, hs]
    · by_cases hatt : att < ret - 1 <;>
        simp [hatt, isNoTimeoutReq, List.filter_append, List.filter_cons, h1]
    · simp [isNoTimeoutReq, List.filter_cons, h1]
    · simp [isNoTimeoutReq, List.filter_cons, h1]
    · rcases hc : (net.attempt att).cover with _ | _ | _ <;> simp only [hc]
      · by_cases hatt : att < ret - 1 <;>
          simp [hatt, isNoTimeoutReq, List.filter_append, List.filter_cons, h1]
      · simp [isNoTimeoutReq, List.filter_cons, h1]
      · simp [isNoTimeoutReq, List.filter_cons]

theorem catalogGo_empty_all (net : Net) (A B : Option String) (ret t : Nat) :
    ∀ (rem att : Nat),
    (∀ a, att ≤ a → a < att + rem → (net.attempt a).search = SearchOutcome.ok []) →
    catalogGo net A B ret t att rem =
      (List.replicate rem (Event.req (Request.catalogSearch A B (some t))), none) := by
  intro rem
  induction rem with
  | zero => intro att h; simp [catalogGo]
  | succ rem ih =>
    intro att h
    have hs : (net.attempt att).search = SearchOutcome.ok [] :=
      h att (Nat.le_refl att) (by omega)
    have ihh := ih (att + 1) (by intro a ha1 ha2; exact h a (by omega) (by omega))
    simp only [catalogGo, hs, ihh, List.replicate_succ]

theorem range_filterMap_ite (n m : Nat) (g : Nat → Nat) :
    (List.range n).filterMap (fun a => if a < m then some (g a) else none) =
      (List.range (min n m)).map g := by
  induction n with
  | zero => simp
  | succ n ih =>
    rw [List.range_succ, List.filterMap_append, ih]
    by_cases h : n < m
    · have h1 : min (n + 1) m = n + 1 := by omega
      have h2 : min n m = n := by omega
      rw [h1, h2, List.range_succ, List.map_append]
      simp [h]
    · have h1 : min (n + 1) m = min n m := by omega
      rw [h1]
      simp [h]

theorem expectedSleeps_all_transient (net : Net) (r : Nat)
    (h : ∀ a, a < r → transientFail net a = true) :
    expectedSleeps net r = (List.range (r - 1)).map fun a => 2 ^ a := by
  unfold expectedSleeps
  have hcong : ∀ a ∈ List.range r, sleepSpec net r a =
      (fun a => if a < r - 1 then some (2 ^ a) else none) a := by
    intro a ha
    rw [List.mem_range] at ha
    have htr := h a ha
    have hns : noSuccessBefore net a = true := by
      apply noSuccessBefore_eq_true
      intro b hb
      exact succeeds_eq_false_of_transient net b (h b (Nat.lt_trans hb ha))
    simp [sleepSpec, hns, htr]
  rw [List.filterMap_congr hcong, range_filterMap_ite]
  have : min r (r - 1) = r - 1 := by omega
  rw [this]

theorem parseKey_two (key : String) (hk : (split_pipe key).length = 2) :
    ∃ x y, split_pipe key = [x, y] ∧
      parseKey (some key) = Except.ok (some x, some y) ∧ key ≠ "" := by
  have hne : key ≠ "" := by
    intro he
    rw [he, show split_pipe "" = [""] from rfl] at hk
    simp at hk
  rcases hs : split_pipe key with _ | ⟨x, _ | ⟨y, _ | _⟩⟩ <;> rw [hs] at hk <;>
    simp at hk
  exact ⟨x, y, rfl, by simp [parseKey, hne, hs], hne⟩

theorem directPhase_events (net : Net) (url : Option String) (t : Nat) :
    (∀ e ∈ (directPhase net url t).1,
      isCatalogReq e = false ∧ isSearchReq e = false ∧ isAttemptLog e = false) ∧
    sleepsOf (directPhase net url t).1 = [] ∧
    ((directPhase net url t).1.filter isNoTimeoutReq).length ≤ 1 ∧
    (∀ e ∈ (directPhase net url t).1, isNoTimeoutReq e = true →
      e = Event.req (Request.getUrl PLACEHOLDER_URL none)) := by
  rcases url with _ | u <;>
    simp only [directPhase] <;>
    rcases net.direct _ with _ | _ <;>
    split_ifs <;>
    refine ⟨?_, by simp [sleepsOf, sleepVal, List.filterMap], ?_, ?_⟩ <;>
    first
    | (intro e he;
       simp only [List.mem_cons, List.not_mem_nil, or_false] at he;
       rcases he with rfl | rfl | rfl | rfl <;>
       simp [isCatalogReq, isSearchReq, isAttemptLog, isNoTimeoutReq])
    | simp [isNoTimeoutReq, List.filter]

theorem directPhase_error (net : Net) (url : Option String) (t : Nat) (e : FetchErr)
    (h : (directPhase net url t).2 = Except.error e) :
    e = FetchErr.placeholderFatal ∧ net.fallbackOk = false := by
  rcases url with _ | u <;>
    simp only [directPhase] at h <;>
    rcases hd : net.direct _ with _ | _ <;>
    rw [hd] at h <;>
    revert h <;>
    split_ifs <;>
    simp_all

/-- C3: when `cover_url` is present, `fetch_image` issues no catalog search
and no cover-by-identifier request, and any image it returns was fetched
from the supplied URL, the placeholder being reached only when that direct
fetch itself fails. -/
theorem direct_url_no_catalog (net : Net) (u : String) (album : Option String) (r t : Nat) :
    (∀ e ∈ (fetch_image net (some u) album r t).1, isCatalogReq e = false) ∧
    (∀ img, (fetch_image net (some u) album r t).2 = Except.ok img →
      (net.direct u = DirectOutcome.ok ∧ img.src = u) ∨
      (net.direct u = DirectOutcome.err ∧ img.src = PLACEHOLDER_URL ∧
        img.prov = Provenance.placeholder)) := by
  rcases hp : parseKey album with e | ⟨a, b⟩ <;>
    simp only [fetch_image, hp]
  · exact ⟨by intro e he; simp at he, by intro img him; simp at him⟩
  · rcases album with _ | al
    · constructor
      · intro ev hev
        exact ((directPhase_events net (some u) t).1 ev hev).1
      · intro img him
        simp only [directPhase] at him ⊢
        rcases hd : net.direct u with _ | _ <;> rw [hd] at him <;> revert him <;>
          split_ifs with hifc <;> intro him <;> simp_all [directPhase] <;>
          (try subst him) <;> simp_all
    · constructor
      · intro ev hev
        exact ((directPhase_events net (some u) t).1 ev hev).1
      · intro img him
        simp only [directPhase] at him ⊢
        rcases hd : net.direct u with _ | _ <;> rw [hd] at him <;> revert him <;>
          split_ifs with hifc <;> intro him <;> simp_all [directPhase] <;>
          (try subst him) <;> simp_all

/-- Witness for C3: the one-cell scenario URL is fetched directly. -/
theorem direct_url_no_catalog_witness :
    (netOk.direct "http://x/cover.png" = DirectOutcome.ok ∧
      Img.src ⟨"http://x/cover.png", Provenance.directUrl⟩ = "http://x/cover.png") ∨
    (netOk.direct "http://x/cover.png" = DirectOutcome.err ∧
      Img.src ⟨"http://x/cover.png", Provenance.directUrl⟩ = PLACEHOLDER_URL ∧
      Img.prov ⟨"http://x/cover.png", Provenance.directUrl⟩ = Provenance.placeholder) :=
  (direct_url_no_catalog netOk "http://x/cover.png" (some "A|B") 3 10).2
    ⟨"http://x/cover.png", Provenance.directUrl⟩ rfl

/-- C5 (amended): for every input whose album key, when present and
non-empty, splits into exactly two parts, `fetch_image` either returns an
image or raises only the fatal placeholder-unreachable error — and the
latter only when the final placeholder fetch fails.  (As frozen the claim
also covered malformed keys, where the line-34 unpack raises instead; see
the counterexample.) -/
theorem fetch_image_absorbs_errors (net : Net) (url album : Option String) (r t : Nat)
    (hkey : ∀ a, album = some a → a ≠ "" → (split_pipe a).length = 2) :
    ∀ e, (fetch_image net url album r t).2 = Except.error e →
      e = FetchErr.placeholderFatal ∧ net.fallbackOk = false := by
  intro e he
  have hp : ∃ pr, parseKey album = Except.ok pr := by
    rcases album with _ | a
    · exact ⟨(none, none), rfl⟩
    · by_cases ha : a = ""
      · exact ⟨(none, none), by simp [parseKey, ha]⟩
      · have h2 := hkey a rfl ha
        rcases hs : split_pipe a with _ | ⟨x, _ | ⟨y, _ | _⟩⟩ <;>
          rw [hs] at h2 <;> simp at h2
        exact ⟨(some x, some y), by simp [parseKey, ha, hs]⟩
  obtain ⟨⟨a, b⟩, hpk⟩ := hp
  simp only [fetch_image, hpk] at he
  rcases url with _ | u
  · rcases album with _ | al
    · exact directPhase_error net none t e he
    · rcases hcg : catalogGo net a b r t 0 r with ⟨catEvs, mb⟩
      rw [hcg] at he
      rcases mb with _ | mbid
      · exact directPhase_error net none t e (by simpa using he)
      · simp at he
  · exact directPhase_error net (some u) t e he

/-- Witness for C5: the fatal environment does raise the fatal error. -/
theorem fetch_image_absorbs_errors_witness :
    FetchErr.placeholderFatal = FetchErr.placeholderFatal ∧ netFatal.fallbackOk = false :=
  fetch_image_absorbs_errors netFatal none none 3 10 (fun _ h => nomatch h)
    FetchErr.placeholderFatal rfl

/-- Counterexample to C5 as frozen: on a malformed album key the unpack at
line 34 raises a `ValueError` out of `fetch_image`, which neither returns
an image nor is the fatal placeholder error. -/
theorem fetch_image_malformed_key_escapes :
    (fetch_image netOk (some "u") (some "AB") 3 10).2 = Except.error FetchErr.malformedKey ∧
    FetchErr.malformedKey ≠ FetchErr.placeholderFatal :=
  ⟨rfl, fun h => nomatch h⟩

/-- C6: an album key that does not split into exactly two parts on the pipe
never yields a drawn cell: processing that entry raises, and for every
non-empty such key the raised error is precisely the malformed-key
`ValueError` of the tuple unpack (an empty key — Python-falsy, so exempt
from the line-34 unpack — still raises it at the line-148 unpack unless the
run already died on the fatal placeholder error). -/
theorem malformed_key_raises (net : Net) (p : Nat × Nat) (album : String)
    (cover_url : Option String) (h : (split_pipe album).length ≠ 2) :
    (∀ c, processEntry net p album cover_url ≠ Except.ok c) ∧
    (album ≠ "" → processEntry net p album cover_url = Except.error FetchErr.malformedKey) := by
  constructor
  · intro c hc
    rw [processEntry] at hc
    rcases hf : (fetch_image net cover_url (some album) RETRIES TIMEOUT).2 with e | img <;>
      rw [hf] at hc
    · simp at hc
    · rcases hs : split_pipe album with _ | ⟨a1, _ | ⟨a2, _ | _⟩⟩ <;> rw [hs] at hc
      · simp at hc
      · simp at hc
      · rw [hs] at h; simp at h
      · simp at hc
  · intro ha
    have hpk : parseKey (some album) = Except.error FetchErr.malformedKey := by
      rcases hs : split_pipe album with _ | ⟨a1, _ | ⟨a2, _ | _⟩⟩ <;>
        simp [parseKey, ha, hs]
      rw [hs] at h; simp at h
    rw [processEntry, fetch_image, hpk]

/-- Witness for C6: a key with no pipe raises the malformed-key error. -/
theorem malformed_key_raises_witness :
    processEntry netOk (20, 140) "nopipe" none = Except.error FetchErr.malformedKey :=
  (malformed_key_raises netOk (20, 140) "nopipe" none (by decide)).2 (by decide)

/-- C10: with `album = None` the line-34 guard yields `(None, None)` with
no malformed-key error, the `album is not None` test at line 36 skips the
catalog entirely, and with `cover_url` also absent the function goes
straight to the fixed placeholder URL and returns that image. -/
theorem album_none_placeholder (net : Net) (r t : Nat) :
    (∀ e ∈ (fetch_image net none none r t).1, isCatalogReq e = false) ∧
    (fetch_image net none none r t).2 ≠ Except.error FetchErr.malformedKey ∧
    (net.direct PLACEHOLDER_URL = DirectOutcome.ok →
      (fetch_image net none none r t).2 = Except.ok ⟨PLACEHOLDER_URL, Provenance.placeholder⟩ ∧
      (fetch_image net none none r t).1 =
        [Event.req (Request.getUrl PLACEHOLDER_URL (some t)),
          Event.log LogLine.defaultPlaceholder]) := by
  have hred : fetch_image net none none r t = directPhase net none t := by
    rw [fetch_image]; rfl
  rw [hred]
  refine ⟨fun e he => ((directPhase_events net none t).1 e he).1, ?_, ?_⟩
  · intro hc
    exact absurd (directPhase_error net none t FetchErr.malformedKey hc).1 (fun h => nomatch h)
  · intro hok
    simp [directPhase, hok]

/-- Witness for C10 in the all-succeeding environment. -/
theorem album_none_placeholder_witness :
    (fetch_image netOk none none 3 10).2 = Except.ok ⟨PLACEHOLDER_URL, Provenance.placeholder⟩ ∧
    (fetch_image netOk none none 3 10).1 =
      [Event.req (Request.getUrl PLACEHOLDER_URL (some 10)),
        Event.log LogLine.defaultPlaceholder] :=
  (album_none_placeholder netOk 3 10).2.2 rfl

/-- C1: for every album collection, `create_review_image` computes
`rows = ceil(n / 5)` (characterised as the least `k` with `n ≤ 5 * k`), a
canvas width of exactly `5 * 200 + 6 * 20 = 1120`, and a height of exactly
`rows * (200 + 40) + (rows + 1) * 20 + 120`; in particular the empty
collection yields a 1120 × 140 canvas. -/
theorem canvas_dims_spec (net : Net) (albums : List (String × Option String)) :
    (create_review_image net albums).width = 1120 ∧
    (create_review_image net albums).width = 5 * 200 + 6 * 20 ∧
    (create_review_image net albums).height =
      num_rows albums.length * (200 + 40) + (num_rows albums.length + 1) * 20 + 120 ∧
    albums.length ≤ 5 * num_rows albums.length ∧
    (∀ k, albums.length ≤ 5 * k → num_rows albums.length ≤ k) ∧
    (albums.length = 0 → (create_review_image net albums).height = 140) := by
  simp only [create_review_image, canvas_width, canvas_height, num_rows,
    IMAGE_WIDTH, IMAGE_HEIGHT, PADDING, NUM_COLUMNS]
  refine ⟨by norm_num, by norm_num, by norm_num, by omega, ?_, by omega⟩
  intro k hk
  omega

/-- Witness for C1 at the empty collection. -/
theorem canvas_dims_spec_witness :
    (create_review_image netOk []).height = 140 :=
  (canvas_dims_spec netOk []).2.2.2.2.2 rfl

/-- C2: the album loop processes entries in insertion order, and when it
completes, the `i`-th cell (0-indexed) is the `i`-th entry of the input,
resized to 200 × 200 and pasted at `x = 20 + 220 * (i % 5)`,
`y = 140 + 260 * (i / 5)`; a single-entry collection gets a
1120-wide, 400-tall canvas (so its one image sits at `(20, 140)`). -/
theorem grid_placement_spec (net : Net) (albums : List (String × Option String))
    (cells : List Cell)
    (h : (create_review_image net albums).cells = Except.ok cells) :
    cells.length = albums.length ∧
    (∀ i (hi : i < cells.length) (hj : i < albums.length),
      (cells.get ⟨i, hi⟩).pos = (20 + 220 * (i % 5), 140 + 260 * (i / 5)) ∧
      (cells.get ⟨i, hi⟩).size = (200, 200) ∧
      (cells.get ⟨i, hi⟩).key = (albums.get ⟨i, hj⟩).1) ∧
    canvas_width = 1120 ∧ canvas_height 1 = 400 := by
  simp only [create_review_image] at h
  rw [startPos_posClosed] at h
  obtain ⟨hlen, hall⟩ := composeGo_pos net albums 0 cells h
  refine ⟨hlen, ?_, by simp [canvas_width, IMAGE_WIDTH, PADDING, NUM_COLUMNS],
    by simp [canvas_height, num_rows, IMAGE_HEIGHT, PADDING, NUM_COLUMNS]⟩
  intro i hi hj
  obtain ⟨h1, h2, h3⟩ := hall i hi hj
  refine ⟨?_, ?_, h3⟩
  · rw [h1]; simp [posClosed]
  · rw [h2]; simp [IMAGE_WIDTH, IMAGE_HEIGHT]

/-- Witness for C2: the one-cell scenario, with the image fetched from the
supplied URL and pasted at `(20, 140)`. -/
theorem grid_placement_spec_witness :
    ([demoCell].get ⟨0, Nat.zero_lt_one⟩).pos = (20 + 220 * (0 % 5), 140 + 260 * (0 / 5)) ∧
    ([demoCell].get ⟨0, Nat.zero_lt_one⟩).size = (200, 200) ∧
    ([demoCell].get ⟨0, Nat.zero_lt_one⟩).key = (demoAlbums.get ⟨0, Nat.zero_lt_one⟩).1 :=
  (grid_placement_spec netOk demoAlbums [demoCell] rfl).2.1 0
    Nat.zero_lt_one Nat.zero_lt_one

/-- C4 (and its amendment of C7's count is separate): with no supplied URL
and a well-formed key, the catalog lookup runs at most `retries` search
requests, and the sleeps of the run are exactly `2 ^ a` for the executed
attempts `a` that fail transiently and are not the final attempt — so a
fully transient-failing run waits `2^0, 2^1, …, 2^(retries-2)`. -/
theorem backoff_spec (net : Net) (key : String) (r t : Nat)
    (hk : (split_pipe key).length = 2) :
    sleepsOf (fetch_image net none (some key) r t).1 = expectedSleeps net r ∧
    ((fetch_image net none (some key) r t).1.filter isSearchReq).length ≤ r ∧
    ((∀ a, a < r → transientFail net a = true) →
      sleepsOf (fetch_image net none (some key) r t).1 =
        (List.range (r - 1)).map fun a => 2 ^ a) := by
  obtain ⟨x, y, hsp, hpk, hne⟩ := parseKey_two key hk
  rcases hcg : catalogGo net (some x) (some y) r t 0 r with ⟨catEvs, mb⟩
  have hsl : sleepsOf catEvs = expectedSleeps net r := by
    have hbr := sleeps_catalogGo net (some x) (some y) r t r 0 (by intro b hb; omega)
    rw [hcg] at hbr
    rw [expectedSleeps, List.range_eq_range']
    exact hbr
  have hsc : (catEvs.filter isSearchReq).length ≤ r := by
    have hb2 := searchCount_catalogGo net (some x) (some y) r t r 0
    rw [hcg] at hb2
    exact hb2
  have hmain : sleepsOf (fetch_image net none (some key) r t).1 = expectedSleeps net r ∧
      ((fetch_image net none (some key) r t).1.filter isSearchReq).length ≤ r := by
    rcases mb with _ | mbid
    · have hred : fetch_image net none (some key) r t =
          (catEvs ++ (directPhase net none t).1, (directPhase net none t).2) := by
        simp only [fetch_image, hpk, hcg]
      rw [hred]
      constructor
      · rw [sleepsOf_append, (directPhase_events net none t).2.1, List.append_nil]
        exact hsl
      · rw [List.filter_append, List.length_append]
        have hd0 : ((directPhase net none t).1.filter isSearchReq).length = 0 := by
          have hnil2 : (directPhase net none t).1.filter isSearchReq = [] := by
            rw [List.filter_eq_nil_iff]
            intro a2 ha2
            have hval := ((directPhase_events net none t).1 a2 ha2).2.1
            simp [hval]
          rw [hnil2]
          rfl
        omega
    · have hred : fetch_image net none (some key) r t =
          (catEvs, Except.ok ⟨MUSICBRAINZ_COVER_API ++ mbid ++ "/front",
            Provenance.catalogLookup⟩) := by
        simp only [fetch_image, hpk, hcg]
      rw [hred]
      exact ⟨hsl, hsc⟩
  refine ⟨hmain.1, hmain.2, ?_⟩
  intro htr
  rw [hmain.1, expectedSleeps_all_transient net r htr]

/-- Witness for C4 in a fully transient-failing environment. -/
theorem backoff_spec_witness :
    sleepsOf (fetch_image netTrans none (some "A|B") 3 10).1 = expectedSleeps netTrans 3 ∧
    ((fetch_image netTrans none (some "A|B") 3 10).1.filter isSearchReq).length ≤ 3 :=
  ⟨(backoff_spec netTrans "A|B" 3 10 (by decide)).1,
    (backoff_spec netTrans "A|B" 3 10 (by decide)).2.1⟩

/-- C7 (amended): when every catalog attempt returns no release candidates,
`fetch_image` falls through to the placeholder (provenance placeholder) —
but the attempts are silent: zero log lines describe them (the loop body
prints only on success or on a raised exception), the search request is
still issued exactly `retries` times, and one defaulting-to-placeholder
line is printed afterwards. -/
theorem no_candidates_placeholder (net : Net) (key : String) (r t : Nat)
    (hk : (split_pipe key).length = 2)
    (hempty : ∀ a, a < r → (net.attempt a).search = SearchOutcome.ok [])
    (hdir : net.direct PLACEHOLDER_URL = DirectOutcome.ok) :
    (fetch_image net none (some key) r t).2 =
      Except.ok ⟨PLACEHOLDER_URL, Provenance.placeholder⟩ ∧
    ((fetch_image net none (some key) r t).1.filter isAttemptLog).length = 0 ∧
    ((fetch_image net none (some key) r t).1.filter isSearchReq).length = r ∧
    ((fetch_image net none (some key) r t).1.filter isPlaceholderLog).length = 1 := by
  obtain ⟨x, y, hsp, hpk, hne⟩ := parseKey_two key hk
  have hcg := catalogGo_empty_all net (some x) (some y) r t r 0
    (by intro a2 ha1 ha2; exact hempty a2 (by omega))
  have hdp : directPhase net none t =
      ([Event.req (Request.getUrl PLACEHOLDER_URL (some t)),
        Event.log LogLine.defaultPlaceholder],
        Except.ok ⟨PLACEHOLDER_URL, Provenance.placeholder⟩) := by
    simp [directPhase, hdir]
  have hred : fetch_image net none (some key) r t =
      (List.replicate r (Event.req (Request.catalogSearch (some x) (some y) (some t))) ++
        [Event.req (Request.getUrl PLACEHOLDER_URL (some t)),
          Event.log LogLine.defaultPlaceholder],
        Except.ok ⟨PLACEHOLDER_URL, Provenance.placeholder⟩) := by
    simp only [fetch_image, hpk, hcg, hdp]
  rw [hred]
  refine ⟨rfl, ?_, ?_, ?_⟩
  · simp [List.filter_append, List.filter_replicate, isAttemptLog, List.filter_cons]
  · simp [List.filter_append, List.filter_replicate, isSearchReq, List.filter_cons]
  · simp [List.filter_append, List.filter_replicate, isPlaceholderLog, List.filter_cons]

/-- Witness for C7's amended statement at `retries = 3`. -/
theorem no_candidates_placeholder_witness :
    (fetch_image netOk none (some "A|B") 3 10).2 =
      Except.ok ⟨PLACEHOLDER_URL, Provenance.placeholder⟩ ∧
    ((fetch_image netOk none (some "A|B") 3 10).1.filter isAttemptLog).length = 0 ∧
    ((fetch_image netOk none (some "A|B") 3 10).1.filter isSearchReq).length = 3 ∧
    ((fetch_image netOk none (some "A|B") 3 10).1.filter isPlaceholderLog).length = 1 :=
  no_candidates_placeholder netOk "A|B" 3 10 (by decide) (fun _ _ => rfl) rfl

/-- Counterexample to C7 as frozen: with all three catalog attempts
returning no candidates, the final image is indeed the placeholder, but the
number of log lines describing the attempts is 0, not `retries = 3` — the
loop body prints nothing when the candidate list is merely empty. -/
theorem no_candidate_logs_not_retries :
    ((fetch_image netOk none (some "A|B") 3 10).1.filter isAttemptLog).length = 0 ∧
    (0 : Nat) ≠ 3 ∧
    (fetch_image netOk none (some "A|B") 3 10).2 =
      Except.ok ⟨PLACEHOLDER_URL, Provenance.placeholder⟩ :=
  ⟨rfl, by omega, rfl⟩

/-- C9 (amended): every request the program issues carries the explicit
per-attempt timeout, except the single final best-effort placeholder fetch
of line 100, which is issued with no timeout argument (and occurs at most
once per resolution). -/
theorem timeouts_except_fallback (net : Net) (url album : Option String) (r t : Nat) :
    (∀ e ∈ (fetch_image net url album r t).1, isNoTimeoutReq e = true →
      e = Event.req (Request.getUrl PLACEHOLDER_URL none)) ∧
    ((fetch_image net url album r t).1.filter isNoTimeoutReq).length ≤ 1 := by
  rcases hp : parseKey album with e0 | ⟨a, b⟩
  · have hred : fetch_image net url album r t = ([], Except.error e0) := by
      rw [fetch_image, hp]
    rw [hred]
    exact ⟨by intro e1 he; simp at he, by simp⟩
  · rcases url with _ | u
    · rcases album with _ | al
      · have hred : fetch_image net none none r t = directPhase net none t := by
          rw [fetch_image, hp]
        rw [hred]
        exact ⟨fun e1 he ht => (directPhase_events net none t).2.2.2 e1 he ht,
          (directPhase_events net none t).2.2.1⟩
      · rcases hcg : catalogGo net a b r t 0 r with ⟨catEvs, mb⟩
        have hcat := catalogGo_no_timeoutless net a b r t r 0
        rw [hcg] at hcat
        rcases mb with _ | mbid
        · have hred : fetch_image net none (some al) r t =
              (catEvs ++ (directPhase net none t).1, (directPhase net none t).2) := by
            simp only [fetch_image, hp, hcg]
          rw [hred]
          constructor
          · intro e1 he ht
            rw [List.mem_append] at he
            rcases he with he | he
            · exfalso
              have hmem : e1 ∈ catEvs.filter isNoTimeoutReq := List.mem_filter.mpr ⟨he, ht⟩
              rw [hcat] at hmem
              simp at hmem
            · exact (directPhase_events net none t).2.2.2 e1 he ht
          · rw [List.filter_append, hcat, List.nil_append]
            exact (directPhase_events net none t).2.2.1
        · have hred : fetch_image net none (some al) r t =
              (catEvs, Except.ok ⟨MUSICBRAINZ_COVER_API ++ mbid ++ "/front",
                Provenance.catalogLookup⟩) := by
            simp only [fetch_image, hp, hcg]
          rw [hred]
          constructor
          · intro e1 he ht
            exfalso
            have hmem : e1 ∈ catEvs.filter isNoTimeoutReq := List.mem_filter.mpr ⟨he, ht⟩
            rw [hcat] at hmem
            simp at hmem
          · simp [hcat]
    · have hred : fetch_image net (some u) album r t = directPhase net (some u) t := by
        rw [fetch_image, hp]
      rw [hred]
      exact ⟨fun e1 he ht => (directPhase_events net (some u) t).2.2.2 e1 he ht,
        (directPhase_events net (some u) t).2.2.1⟩

/-- Witness for C9's amended statement. -/
theorem timeouts_except_fallback_witness :
    ((fetch_image netOk (some "u") none 3 10).1.filter isNoTimeoutReq).length ≤ 1 :=
  (timeouts_except_fallback netOk (some "u") none 3 10).2

/-- Counterexample to C9 as frozen: when the direct fetch fails, the final
placeholder fetch of line 100 is issued with no timeout argument. -/
theorem fallback_fetch_no_timeout :
    Event.req (Request.getUrl PLACEHOLDER_URL none) ∈
      (fetch_image netDirectErr (some "http://x") none 3 10).1 ∧
    isNoTimeoutReq (Event.req (Request.getUrl PLACEHOLDER_URL none)) = true := by
  constructor
  · have hred : (fetch_image netDirectErr (some "http://x") none 3 10).1 =
        [Event.req (Request.getUrl "http://x" (some 10)), Event.log LogLine.errFetching,
          Event.log LogLine.defaultingAfterErr,
          Event.req (Request.getUrl PLACEHOLDER_URL none)] := rfl
    rw [hred]
    simp
  · rfl

/-- C8: the artist caption line is centered using its own rendered width
(`x + (200 - w) / 2`), but the album caption line is not — line 162
subtracts the TITLE bbox's left coordinate (`bbox[0]`) instead of
`bbox_album[0]`, so with a title bbox starting at 2 and an album caption
measuring 0–50 in a cell at `x = 20`, the album line lands at 96 instead of
the centered 95. -/
theorem album_caption_centering_bug :
    (∀ (te : TextEnv) (x y : Nat) (artist albumName : String),
      (drawCaptions te x y artist albumName).1.x =
        (x : ℚ) + ((200 : ℚ) - (((te.cap artist).2 - (te.cap artist).1 : Int) : ℚ)) / 2) ∧
    (drawCaptions te8 20 140 "A" "B").2.x = 96 ∧
    (20 : ℚ) + ((200 : ℚ) - (((te8.cap "B").2 - (te8.cap "B").1 : Int) : ℚ)) / 2 = 95 ∧
    ((96 : ℚ) ≠ 95) := by
  refine ⟨?_, ?_, ?_, by norm_num⟩
  · intro te x y artist albumName
    simp only [drawCaptions, IMAGE_WIDTH]
    push_cast
    ring
  · simp only [drawCaptions, te8, IMAGE_WIDTH, IMAGE_HEIGHT]
    norm_num
  · norm_num [te8]

end YearReview
